import Mathlib

/-!
Verification of the content-model logic of the `golang-multiuser-blog`
repository: slug generation (`internal/utils/utils.go`), pagination
(`internal/utils/utils.go`), the post publication state machine and slug
uniqueness loop (`internal/service/post_service.go`), the comment moderation
state machine (`internal/service/comment_service.go`), the comment repository
(`internal/repository/comment_repository.go`) and the tag service
(`internal/service/tag_service.go`).

Go strings are modelled as lists of characters.  Every character produced by
the slug pipeline is ASCII, so Go's byte-based `len`/slicing coincides with
character counts on slugs.  `strings.ToLower` is modelled by the ASCII case
mapping (`Char.toLower`); the two differ only on exotic code points such as
U+212A, which the slug regex replaces with a hyphen either way.  Database
tables are modelled as lists of records; GORM's unbounded `for` retry loop in
the slug-uniqueness check is modelled with explicit fuel.
-/

namespace Blog

/-- Go strings, viewed as their sequence of runes. -/
abbrev Str := List Char

/-- Convenience conversion for writing concrete Go string literals. -/
def toChars (s : String) : Str := s.toList

/-! ### Character classes (utils.go) -/

/-- The character class `[a-z0-9]` of the slug regex `[^a-z0-9]+`. -/
def isSlugChar (c : Char) : Bool :=
  ('a' ≤ c && c ≤ 'z') || ('0' ≤ c && c ≤ '9')

/-- Go regexp `\s`: `[\t\n\f\r ]` (plus vertical tab). -/
def isGoSpace (c : Char) : Bool :=
  c == ' ' || c == '\t' || c == '\n' || c == '\r' || c == '\x0b' || c == '\x0c'

/-- `strings.ToLower`, restricted to the ASCII case mapping. -/
def goToLower (c : Char) : Char := c.toLower

/-! ### Regex run replacement and trimming (utils.go helpers) -/

/-- `reg.ReplaceAllString(s, rep)` for a regex of the form `[class]+`: each
maximal run of characters satisfying `bad` becomes the single character
`rep`.  The `inRun` flag records whether the previous character was part of
such a run. -/
def collapseRuns (bad : Char → Bool) (rep : Char) : Bool → Str → Str
  | _, [] => []
  | inRun, c :: rest =>
    if bad c then
      if inRun then collapseRuns bad rep true rest
      else rep :: collapseRuns bad rep true rest
    else c :: collapseRuns bad rep false rest

/-- Left half of `strings.Trim`: drop leading characters satisfying `p`. -/
def trimLeftP (p : Char → Bool) : Str → Str
  | [] => []
  | c :: rest => if p c then trimLeftP p rest else c :: rest

/-- Right half of `strings.Trim`: drop trailing characters satisfying `p`. -/
def trimRightP (p : Char → Bool) : Str → Str
  | [] => []
  | c :: rest =>
    match trimRightP p rest with
    | [] => if p c then [] else [c]
    | r => c :: r

/-- `strings.Trim(s, cutset)`: drop leading and trailing characters
satisfying `p`. -/
def trimBoth (p : Char → Bool) (l : Str) : Str := trimRightP p (trimLeftP p l)

/-- A character is a hyphen. -/
def isHyphen (c : Char) : Bool := c == '-'

/-! ### GenerateSlug (utils.go lines 20–38) -/

/-- The first three steps of `utils.GenerateSlug` (the value of `slug` just
before the `len(slug) > 100` check): lowercase, replace runs of `[^a-z0-9]`
with a single hyphen, trim hyphens. -/
def slugCandidate (text : Str) : Str :=
  trimBoth isHyphen (collapseRuns (fun c => !isSlugChar c) '-' false (text.map goToLower))

/-- `utils.GenerateSlug`: the candidate above and then, if longer than 100
(bytes = characters here, everything is ASCII after the replacement),
truncate to 100 and trim hyphens again. -/
def generateSlug (text : Str) : Str :=
  let slug := slugCandidate text
  if slug.length > 100 then trimBoth isHyphen (slug.take 100) else slug

/-- `strings.Contains(slug, "--")`: the string has two consecutive hyphens. -/
def hasDoubleHyphen : Str → Bool
  | c1 :: c2 :: rest => (isHyphen c1 && isHyphen c2) || hasDoubleHyphen (c2 :: rest)
  | _ => false

/-- `utils.IsValidSlug`: nonempty, only `[a-z0-9-]`, no leading or trailing
hyphen, no `--`. -/
def isValidSlug (slug : Str) : Bool :=
  !slug.isEmpty &&
  slug.all (fun c => isSlugChar c || isHyphen c) &&
  !(match slug.head? with | some c => isHyphen c | none => false) &&
  !(match slug.getLast? with | some c => isHyphen c | none => false) &&
  !hasDoubleHyphen slug

/-- The well-formedness of a generated slug, exactly as claimed: only
lowercase ASCII alphanumerics and hyphens, no `--`, no leading or trailing
hyphen, length at most 100. -/
def slugWellFormed (s : Str) : Bool :=
  s.all (fun c => isSlugChar c || isHyphen c) &&
  !hasDoubleHyphen s &&
  !(match s.head? with | some c => isHyphen c | none => false) &&
  !(match s.getLast? with | some c => isHyphen c | none => false) &&
  decide (s.length ≤ 100)

/-! ### SanitizeText / TruncateText / ExtractExcerpt (utils.go) -/

/-- `utils.SanitizeText`: replace runs of `\s` with a single space, then trim
whitespace. -/
def sanitizeText (text : Str) : Str :=
  trimBoth isGoSpace (collapseRuns isGoSpace ' ' false text)

/-- `utils.TruncateText`: if the text exceeds `maxLength`, cut at the last
space before the limit (or at the limit when there is no space) and append
`"..."`. -/
def truncateText (text : Str) (maxLength : Nat) : Str :=
  if text.length ≤ maxLength then text
  else
    match (text.take maxLength).reverse.dropWhile (fun c => !(c == ' ')) with
    | [] => text.take maxLength ++ toChars "..."
    | _ :: rest => rest.reverse ++ toChars "..."

/-- The HTML-tag stripping regex `<[^>]*>` of `utils.ExtractExcerpt`: each
`<`, when a closing `>` follows, is dropped together with everything through
that `>`; a `<` with no closing `>` matches nothing and stays. -/
def stripHTMLTags : Str → Str
  | [] => []
  | c :: rest =>
    if c == '<' && rest.any (fun d => d == '>') then
      stripHTMLTags ((rest.dropWhile (fun d => !(d == '>'))).drop 1)
    else c :: stripHTMLTags rest
  termination_by l => l.length
  decreasing_by
    · simp only [List.length_cons]
      have h1 : ∀ l : Str, (l.dropWhile (fun d => !(d == '>'))).length ≤ l.length := by
        intro l
        induction l with
        | nil => simp [List.dropWhile]
        | cons a t ih =>
          simp only [List.dropWhile]
          split
          · simpa using Nat.le_trans ih (Nat.le_succ _)
          · simp
      have h2 : ((rest.dropWhile (fun d => !(d == '>'))).drop 1).length ≤
          (rest.dropWhile (fun d => !(d == '>'))).length := by
        simp [List.length_drop]
      have := h1 rest
      omega
    · simp

/-- `utils.ExtractExcerpt`: strip tags, sanitize, truncate. -/
def extractExcerpt (content : Str) (maxLength : Nat) : Str :=
  truncateText (sanitizeText (stripHTMLTags content)) maxLength

/-! ### CalculatePagination (utils.go lines 161–180) -/

/-- `models.PaginationMeta` (Go `int`s, modelled as unbounded integers). -/
structure PaginationMeta where
  page : Int
  perPage : Int
  total : Int
  totalPages : Int
deriving DecidableEq, Repr

/-- `utils.CalculatePagination`.  Go's `/` on integers truncates toward
zero, which is `Int.tdiv`. -/
def calculatePagination (page perPage : Int) (total : Int) : PaginationMeta :=
  let page := if page < 1 then 1 else page
  let perPage := if perPage < 1 then 10 else perPage
  let perPage := if perPage > 100 then 100 else perPage
  let totalPages := Int.tdiv (total + perPage - 1) perPage
  { page := page, perPage := perPage, total := total, totalPages := totalPages }

/-! ### Post model (models/post.go) -/

inductive PostStatus
  | draft
  | published
  | archived
deriving DecidableEq, Repr

/-- `models.Post` (fields relevant to the content model; `*time.Time` becomes
an optional abstract timestamp, GORM relationship fields are derived from the
tables and not stored). -/
structure Post where
  id : Nat
  title : Str
  slug : Str
  content : Str
  excerpt : Str
  featuredImg : Str
  status : PostStatus
  viewCount : Nat
  authorID : Nat
  publishedAt : Option Nat
deriving DecidableEq, Repr

/-- `models.PostCreateRequest`.  The `validate:"required"` status tag means a
request only passes validation with one of the three literal statuses, so the
field is modelled with the enum directly. -/
structure PostCreateRequest where
  title : Str
  content : Str
  excerpt : Str
  featuredImg : Str
  status : PostStatus
  tagIDs : List Nat
deriving Repr

/-- `models.PostUpdateRequest`; `status` is `omitempty`, the empty Go string
is `none`. -/
structure PostUpdateRequest where
  title : Str
  content : Str
  excerpt : Str
  featuredImg : Str
  status : Option PostStatus
  tagIDs : List Nat
deriving Repr

/-- go-playground's `url` validation tag, abstracted: a scheme followed by
`://` and a nonempty rest.  None of the verified claims depends on which
URLs pass; only post creations with a valid or absent image URL occur in
witnesses. -/
def isValidURL (s : Str) : Bool :=
  match s.dropWhile (fun c => !(c == ':')) with
  | ':' :: '/' :: '/' :: rest => !s.head?.isEqSome ':' && !rest.isEmpty
  | _ => false

/-- Validation of `PostCreateRequest` per its struct tags: title
`required,min=5,max=200`, content `required,min=10`, excerpt `max=500`,
featured image `omitempty,url`. -/
def postCreateReqValid (req : PostCreateRequest) : Bool :=
  5 ≤ req.title.length && req.title.length ≤ 200 &&
  10 ≤ req.content.length &&
  req.excerpt.length ≤ 500 &&
  (req.featuredImg.isEmpty || isValidURL req.featuredImg)

/-- Validation of `PostUpdateRequest` per its struct tags (all `omitempty`,
except excerpt's plain `max=500`). -/
def postUpdateReqValid (req : PostUpdateRequest) : Bool :=
  (req.title.isEmpty || (5 ≤ req.title.length && req.title.length ≤ 200)) &&
  (req.content.isEmpty || 10 ≤ req.content.length) &&
  req.excerpt.length ≤ 500 &&
  (req.featuredImg.isEmpty || isValidURL req.featuredImg)

/-! ### Slug uniqueness loop (post_service.go Create, tag_service.go Create) -/

/-- `fmt.Sprintf("%s-%d", originalSlug, counter)`. -/
def numberedSlug (originalSlug : Str) (counter : Nat) : Str :=
  originalSlug ++ '-' :: Nat.toDigits 10 counter

/-- The `counter`-th slug candidate tried by the uniqueness loop:
the original slug first, then `orig-1`, `orig-2`, …. -/
def slugAttempt (originalSlug : Str) : Nat → Str
  | 0 => originalSlug
  | Nat.succ k => numberedSlug originalSlug (k + 1)

/-- The service-layer retry loop
```
counter := 1
for IsSlugTaken(slug, 0) {
    slug = fmt.Sprintf("%s-%d", originalSlug, counter)
    counter++
}
```
Go runs it unbounded; the model carries explicit fuel.  With fuel larger
than the number of stored slugs the loop always exits on an untaken slug,
because the attempts are pairwise distinct. -/
def uniqueSlugLoop (isTaken : Str → Bool) (originalSlug : Str) :
    Str → Nat → Nat → Str
  | slug, _, 0 => slug
  | slug, counter, Nat.succ fuel =>
    if isTaken slug then
      uniqueSlugLoop isTaken originalSlug (numberedSlug originalSlug counter) (counter + 1) fuel
    else slug

/-- Entry point of the uniqueness retry: start at the candidate itself with
`counter = 1`. -/
def ensureUniqueSlug (isTaken : Str → Bool) (slug : Str) (fuel : Nat) : Str :=
  uniqueSlugLoop isTaken slug slug 1 fuel

/-! ### Post repository (repository/post_repository.go) -/

/-- `postRepository.IsSlugTaken`: a row with this slug exists, excluding
`excludeID` when it is positive. -/
def postIsSlugTaken (db : List Post) (slug : Str) (excludeID : Nat) : Bool :=
  db.any (fun p => p.slug == slug && (excludeID == 0 || p.id != excludeID))

/-- `postRepository.GetByID` restricted to the row lookup (`First(&post, id)`;
relationship preloads are separate queries on the other tables). -/
def postGetByID (db : List Post) (id : Nat) : Option Post :=
  db.find? (fun p => p.id == id)

/-- GORM `Save` on a fetched row: replace the row with this id. -/
def postSave (db : List Post) (post : Post) : List Post :=
  db.map (fun p => if p.id == post.id then post else p)

/-! ### Post service (service/post_service.go) -/

/-- `postService.Create`.  `now` is the abstract current time, `newID` the id
the database assigns.  Tag association (`UpdateTags`) is best-effort in the
source, logged and never failing the creation, and does not touch the posts
table, so it is not modelled.  The fuel for the uniqueness loop is one more
than the table size, enough for the loop to exit exactly as Go's unbounded
loop does. -/
def postCreate (now : Nat) (authorID : Nat) (req : PostCreateRequest)
    (db : List Post) (newID : Nat) : Except Str (Post × List Post) :=
  if !postCreateReqValid req then .error (toChars "validation failed")
  else
    let slug := ensureUniqueSlug (fun s => postIsSlugTaken db s 0)
      (generateSlug req.title) (db.length + 1)
    let excerpt := if req.excerpt.isEmpty then extractExcerpt req.content 200 else req.excerpt
    let post : Post :=
      { id := newID
        title := sanitizeText req.title
        slug := slug
        content := req.content
        excerpt := sanitizeText excerpt
        featuredImg := req.featuredImg
        status := req.status
        viewCount := 0
        authorID := authorID
        publishedAt := if req.status = .published then some now else none }
    .ok (post, db ++ [post])

/-- The `if req.Title != ""` block of `postService.Update`: sanitize the new
title into the record, and regenerate the slug only when the freshly derived
slug differs from the stored one and is not taken by another post. -/
def postApplyTitle (req : PostUpdateRequest) (db : List Post) (postID : Nat)
    (post : Post) : Post :=
  if !req.title.isEmpty then
    let post := { post with title := sanitizeText req.title }
    let newSlug := generateSlug req.title
    if newSlug != post.slug && !postIsSlugTaken db newSlug postID then
      { post with slug := newSlug }
    else post
  else post

/-- The `if req.Content != ""` block of `postService.Update`. -/
def postApplyContent (req : PostUpdateRequest) (post : Post) : Post :=
  if !req.content.isEmpty then { post with content := req.content } else post

/-- The excerpt block of `postService.Update`: explicit excerpt wins,
otherwise a new excerpt is derived from new content. -/
def postApplyExcerpt (req : PostUpdateRequest) (post : Post) : Post :=
  if !req.excerpt.isEmpty then { post with excerpt := sanitizeText req.excerpt }
  else if !req.content.isEmpty then { post with excerpt := extractExcerpt req.content 200 }
  else post

/-- The featured-image block of `postService.Update`. -/
def postApplyImg (req : PostUpdateRequest) (post : Post) : Post :=
  if !req.featuredImg.isEmpty then { post with featuredImg := req.featuredImg } else post

/-- The status block of `postService.Update`: on an actual status change,
set the status, and set the publication timestamp only when entering
`published` with the timestamp still unset. -/
def postApplyStatus (now : Nat) (req : PostUpdateRequest) (post : Post) : Post :=
  match req.status with
  | some st =>
    if st ≠ post.status then
      let post := { post with status := st }
      if st = .published && post.publishedAt = none then
        { post with publishedAt := some now }
      else post
    else post
  | none => post

/-- `postService.Update`: validation, fetch, ownership check, then the five
conditional field blocks above in source order, then save. -/
def postUpdate (now : Nat) (postID authorID : Nat) (req : PostUpdateRequest)
    (isAdmin : Bool) (db : List Post) : Except Str (Post × List Post) :=
  if !postUpdateReqValid req then .error (toChars "validation failed")
  else match postGetByID db postID with
  | none => .error (toChars "post not found")
  | some post =>
    if !isAdmin && post.authorID != authorID then
      .error (toChars "unauthorized: you can only update your own posts")
    else
      let post := postApplyStatus now req
        (postApplyImg req (postApplyExcerpt req (postApplyContent req
          (postApplyTitle req db postID post))))
      .ok (post, postSave db post)

/-- `postService.Publish`: set status to published; set the timestamp only
when it is not already set. -/
def postPublish (now : Nat) (postID authorID : Nat) (isAdmin : Bool)
    (db : List Post) : Except Str (Post × List Post) :=
  match postGetByID db postID with
  | none => .error (toChars "post not found")
  | some post =>
    if !isAdmin && post.authorID != authorID then
      .error (toChars "unauthorized: you can only publish your own posts")
    else
      let post := { post with status := PostStatus.published }
      let post := if post.publishedAt = none then { post with publishedAt := some now } else post
      .ok (post, postSave db post)

/-- `postService.Unpublish`: set status to draft; `PublishedAt` untouched. -/
def postUnpublish (postID authorID : Nat) (isAdmin : Bool)
    (db : List Post) : Except Str (Post × List Post) :=
  match postGetByID db postID with
  | none => .error (toChars "post not found")
  | some post =>
    if !isAdmin && post.authorID != authorID then
      .error (toChars "unauthorized: you can only unpublish your own posts")
    else
      let post := { post with status := PostStatus.draft }
      .ok (post, postSave db post)

/-! ### Tag model and service (models/tag.go, tag_service.go, tag_repository.go) -/

/-- `models.Tag` (content fields; the many-to-many post association lives in
its own join table and is irrelevant to the verified claims). -/
structure Tag where
  id : Nat
  name : Str
  slug : Str
  description : Str
  color : Str
deriving DecidableEq, Repr

structure TagCreateRequest where
  name : Str
  description : Str
  color : Str
deriving Repr

structure TagUpdateRequest where
  name : Str
  description : Str
  color : Str
deriving Repr

/-- go-playground's `hexcolor` tag, abstracted to the common `#RGB`/`#RRGGBB`
forms; no verified claim depends on which colors pass. -/
def isHexColor (s : Str) : Bool :=
  match s with
  | '#' :: rest =>
    (rest.length == 3 || rest.length == 6) &&
    rest.all (fun c => ('0' ≤ c && c ≤ '9') || ('a' ≤ c && c ≤ 'f') || ('A' ≤ c && c ≤ 'F'))
  | _ => false

/-- `TagCreateRequest` struct tags: name `required,min=2,max=50`,
description `max=200`, color `omitempty,hexcolor`. -/
def tagCreateReqValid (req : TagCreateRequest) : Bool :=
  2 ≤ req.name.length && req.name.length ≤ 50 &&
  req.description.length ≤ 200 &&
  (req.color.isEmpty || isHexColor req.color)

/-- `TagUpdateRequest` struct tags (name `omitempty`). -/
def tagUpdateReqValid (req : TagUpdateRequest) : Bool :=
  (req.name.isEmpty || (2 ≤ req.name.length && req.name.length ≤ 50)) &&
  req.description.length ≤ 200 &&
  (req.color.isEmpty || isHexColor req.color)

/-- `tagRepository.IsNameTaken`: `LOWER(name) = LOWER(?)`, excluding
`excludeID` when positive. -/
def tagIsNameTaken (db : List Tag) (name : Str) (excludeID : Nat) : Bool :=
  db.any (fun t => t.name.map goToLower == name.map goToLower &&
    (excludeID == 0 || t.id != excludeID))

/-- `tagRepository.IsSlugTaken`. -/
def tagIsSlugTaken (db : List Tag) (slug : Str) (excludeID : Nat) : Bool :=
  db.any (fun t => t.slug == slug && (excludeID == 0 || t.id != excludeID))

def tagGetByID (db : List Tag) (id : Nat) : Option Tag :=
  db.find? (fun t => t.id == id)

def tagSave (db : List Tag) (tag : Tag) : List Tag :=
  db.map (fun t => if t.id == tag.id then tag else t)

/-- `tagService.Create`: name-uniqueness check, then the same slug
uniqueness retry loop as posts, default color `#3B82F6`. -/
def tagCreate (req : TagCreateRequest) (db : List Tag) (newID : Nat) :
    Except Str (Tag × List Tag) :=
  if !tagCreateReqValid req then .error (toChars "validation failed")
  else if tagIsNameTaken db req.name 0 then .error (toChars "tag name is already taken")
  else
    let slug := ensureUniqueSlug (fun s => tagIsSlugTaken db s 0)
      (generateSlug req.name) (db.length + 1)
    let color := if req.color.isEmpty then toChars "#3B82F6" else req.color
    let tag : Tag :=
      { id := newID
        name := sanitizeText req.name
        slug := slug
        description := sanitizeText req.description
        color := color }
    .ok (tag, db ++ [tag])

/-- The name block of `tagService.Update` (reached only when the name-taken
check has not errored): on a supplied, different name, sanitize it in and
regenerate the slug only when the freshly derived slug differs and is not
taken by another tag. -/
def tagApplyName (req : TagUpdateRequest) (db : List Tag) (tagID : Nat)
    (tag : Tag) : Tag :=
  if !req.name.isEmpty && req.name != tag.name then
    let tag := { tag with name := sanitizeText req.name }
    let newSlug := generateSlug req.name
    if newSlug != tag.slug && !tagIsSlugTaken db newSlug tagID then
      { tag with slug := newSlug }
    else tag
  else tag

/-- The description block of `tagService.Update`. -/
def tagApplyDescription (req : TagUpdateRequest) (tag : Tag) : Tag :=
  if !req.description.isEmpty then
    { tag with description := sanitizeText req.description }
  else tag

/-- The color block of `tagService.Update`. -/
def tagApplyColor (req : TagUpdateRequest) (tag : Tag) : Tag :=
  if !req.color.isEmpty then { tag with color := req.color } else tag

/-- `tagService.Update`: name change guarded by equality with the stored
name and the name-uniqueness check, slug regeneration guarded by the
collision check, then description and color. -/
def tagUpdate (tagID : Nat) (req : TagUpdateRequest) (db : List Tag) :
    Except Str (Tag × List Tag) :=
  if !tagUpdateReqValid req then .error (toChars "validation failed")
  else match tagGetByID db tagID with
  | none => .error (toChars "tag not found")
  | some tag =>
    if !req.name.isEmpty && req.name != tag.name && tagIsNameTaken db req.name tagID then
      .error (toChars "tag name is already taken")
    else
      let tag := tagApplyColor req (tagApplyDescription req (tagApplyName req db tagID tag))
      .ok (tag, tagSave db tag)

/-! ### Comment model (models/comment.go) -/

inductive CommentStatus
  | pending
  | approved
  | rejected
deriving DecidableEq, Repr

/-- `models.Comment` (content fields; `createdAt` is an abstract timestamp
used by the listing order). -/
structure Comment where
  id : Nat
  content : Str
  status : CommentStatus
  authorID : Nat
  postID : Nat
  parentID : Option Nat
  createdAt : Nat
deriving DecidableEq, Repr

structure CommentCreateRequest where
  content : Str
  postID : Nat
  parentID : Option Nat
deriving Repr

/-- `models.CommentUpdateRequest`; both fields `omitempty`, the empty status
string is `none`. -/
structure CommentUpdateRequest where
  content : Str
  status : Option CommentStatus
deriving Repr

/-- `CommentCreateRequest` struct tags: content `required,min=1,max=1000`,
post id `required` (a Go `uint`, required means nonzero). -/
def commentCreateReqValid (req : CommentCreateRequest) : Bool :=
  1 ≤ req.content.length && req.content.length ≤ 1000 && req.postID != 0

/-- `CommentUpdateRequest` struct tags: content `omitempty,min=1,max=1000`. -/
def commentUpdateReqValid (req : CommentUpdateRequest) : Bool :=
  req.content.isEmpty || (1 ≤ req.content.length && req.content.length ≤ 1000)

def commentGetByID (db : List Comment) (id : Nat) : Option Comment :=
  db.find? (fun c => c.id == id)

def commentSave (db : List Comment) (comment : Comment) : List Comment :=
  db.map (fun c => if c.id == comment.id then comment else c)

/-! ### Comment service (service/comment_service.go) -/

/-- `commentService.Create`: validate, require the post to exist, require the
parent comment to exist for replies, then store with status `pending`
unconditionally.  The function takes no role flag: admins go through the
same path as everyone else. -/
def commentCreate (authorID : Nat) (req : CommentCreateRequest)
    (posts : List Post) (comments : List Comment) (newID now : Nat) :
    Except Str (Comment × List Comment) :=
  if !commentCreateReqValid req then .error (toChars "validation failed")
  else match postGetByID posts req.postID with
  | none => .error (toChars "post not found")
  | some _ =>
    let parentOk := match req.parentID with
      | none => true
      | some pid => (commentGetByID comments pid).isSome
    if !parentOk then .error (toChars "parent comment not found")
    else
      let comment : Comment :=
        { id := newID
          content := sanitizeText req.content
          status := CommentStatus.pending
          authorID := authorID
          postID := req.postID
          parentID := req.parentID
          createdAt := now }
      .ok (comment, comments ++ [comment])

/-- `commentService.Update`: ownership check, content edit resets status to
pending unless the requester is an admin, and only an admin may set the
status directly in the same call. -/
def commentUpdate (commentID authorID : Nat) (req : CommentUpdateRequest)
    (isAdmin : Bool) (comments : List Comment) :
    Except Str (Comment × List Comment) :=
  if !commentUpdateReqValid req then .error (toChars "validation failed")
  else match commentGetByID comments commentID with
  | none => .error (toChars "comment not found")
  | some comment =>
    if !isAdmin && comment.authorID != authorID then
      .error (toChars "unauthorized: you can only update your own comments")
    else
      let comment := if !req.content.isEmpty then
          let comment := { comment with content := sanitizeText req.content }
          if !isAdmin then { comment with status := CommentStatus.pending } else comment
        else comment
      let comment := match req.status with
        | some st => if isAdmin then { comment with status := st } else comment
        | none => comment
      .ok (comment, commentSave comments comment)

/-! ### Comment repository (repository/comment_repository.go) -/

/-- `commentRepository.Delete`: delete all rows whose `parent_id` is the
target (the direct replies), then the row itself. -/
def commentRepoDelete (db : List Comment) (id : Nat) : List Comment :=
  let db := db.filter (fun c => !(c.parentID == some id))
  db.filter (fun c => !(c.id == id))

/-- Insertion step of the sort modelling SQL `ORDER BY`. -/
def insertSorted {α : Type} (le : α → α → Bool) (a : α) : List α → List α
  | [] => [a]
  | b :: rest => if le a b then a :: b :: rest else b :: insertSorted le a rest

/-- Insertion sort modelling SQL `ORDER BY` (kernel-evaluable; the verified
claims do not depend on the order itself). -/
def sortBy {α : Type} (le : α → α → Bool) : List α → List α
  | [] => []
  | a :: rest => insertSorted le a (sortBy le rest)

/-- `commentService.Delete`: fetch, ownership check, then the repository
cascade. -/
def commentServiceDelete (commentID authorID : Nat) (isAdmin : Bool)
    (db : List Comment) : Except Str (List Comment) :=
  match commentGetByID db commentID with
  | none => .error (toChars "comment not found")
  | some comment =>
    if !isAdmin && comment.authorID != authorID then
      .error (toChars "unauthorized: you can only delete your own comments")
    else .ok (commentRepoDelete db commentID)

/-- No stored comment's `parent_id` references a comment that does not
exist. -/
def noOrphans (db : List Comment) : Bool :=
  db.all (fun c => match c.parentID with
    | none => true
    | some p => db.any (fun d => d.id == p))

/-- The `Preload("Replies")` filter of the comment listings: approved direct
replies of a comment, ordered by creation time ascending. -/
def approvedReplies (db : List Comment) (parentID : Nat) : List Comment :=
  sortBy (fun a b => a.createdAt ≤ b.createdAt)
    (db.filter (fun r => r.parentID == some parentID && r.status == CommentStatus.approved))

/-- `commentRepository.GetByPost`: approved top-level comments of the post
(`parent_id IS NULL AND status = approved`), counted before pagination,
ordered by creation time descending, paginated, each carrying its approved
replies. -/
def commentGetByPost (db : List Comment) (postID : Nat) (offset limit : Nat) :
    List (Comment × List Comment) × Nat :=
  let topLevel := db.filter (fun c =>
    c.postID == postID && c.parentID == none && c.status == CommentStatus.approved)
  let page := ((sortBy (fun a b => b.createdAt ≤ a.createdAt) topLevel).drop offset).take limit
  (page.map (fun c => (c, approvedReplies db c.id)), topLevel.length)

/-! ## Shared sample records for witnesses -/

/-- A draft post as stored after a typical creation. -/
def samplePost : Post :=
  { id := 1
    title := toChars "Hello World"
    slug := toChars "hello-world"
    content := toChars "some long content"
    excerpt := toChars "some long content"
    featuredImg := []
    status := PostStatus.draft
    viewCount := 0
    authorID := 7
    publishedAt := none }

/-- The freshly created comment of the C2 witness. -/
def cNice : Comment := ⟨1, toChars "nice post", CommentStatus.pending, 9, 1, none, 0⟩

/-- The stored comment of the C3 witness: previously approved. -/
def cApproved : Comment := ⟨1, toChars "old", CommentStatus.approved, 9, 1, none, 0⟩

/-- Its content-edited variants, as produced by `commentUpdate`. -/
def cEdited (st : CommentStatus) : Comment := ⟨1, toChars "new", st, 9, 1, none, 0⟩

/-- A three-level reply chain on `samplePost`, built by three service
creations: a root comment, a reply, and a reply to the reply. -/
def cmt1 : Comment := ⟨1, toChars "hi", CommentStatus.pending, 7, 1, none, 0⟩

def cmt2 : Comment := ⟨2, toChars "ho", CommentStatus.pending, 8, 1, some 1, 1⟩

def cmt3 : Comment := ⟨3, toChars "he", CommentStatus.pending, 9, 1, some 2, 2⟩

/-- Approved top-level comment, pending top-level comment and approved reply
for the C10 witness. -/
def cListTop : Comment := ⟨1, toChars "top", CommentStatus.approved, 7, 1, none, 5⟩

def cPendingTop : Comment := ⟨2, toChars "pend", CommentStatus.pending, 7, 1, none, 7⟩

def cListReply : Comment := ⟨3, toChars "re", CommentStatus.approved, 8, 1, some 1, 6⟩

def cListDB : List Comment := [cListTop, cPendingTop, cListReply]

/-- The C5 counterexample input: a 98-letter word, a space, then `bbbb`.
Its candidate slug is 103 characters, so the length cap truncates it in the
middle of the final word. -/
def midWordTitle : Str := List.replicate 98 'a' ++ [' '] ++ List.replicate 4 'b'

/-- A valid draft-post creation request with the scenario title. -/
def cReqDraft : PostCreateRequest :=
  { title := toChars "Hello World"
    content := toChars "some long content"
    excerpt := toChars "ex"
    featuredImg := []
    status := PostStatus.draft
    tagIDs := [] }

/-- The two posts the C6 scenario produces from two identical titles. -/
def cHW1 : Post :=
  { id := 1, title := toChars "Hello World", slug := toChars "hello-world"
    content := toChars "some long content", excerpt := toChars "ex", featuredImg := []
    status := PostStatus.draft, viewCount := 0, authorID := 7, publishedAt := none }

def cHW2 : Post :=
  { id := 2, title := toChars "Hello World", slug := toChars "hello-world-1"
    content := toChars "some long content", excerpt := toChars "ex", featuredImg := []
    status := PostStatus.draft, viewCount := 0, authorID := 8, publishedAt := none }

/-- The creation request of the C1 witness: same fields, created published. -/
def cReqPub : PostCreateRequest := { cReqDraft with status := PostStatus.published }

/-- The post the C1 witness creation produces at time 5. -/
def cPubPost : Post := { cHW1 with status := PostStatus.published, publishedAt := some 5 }

/-- Update request carrying only a status change to `published`. -/
def cReqPublish : PostUpdateRequest :=
  { title := [], content := [], excerpt := [], featuredImg := []
    status := some PostStatus.published, tagIDs := [] }

/-- Update request carrying only a status change to `draft`. -/
def cReqDraftStatus : PostUpdateRequest := { cReqPublish with status := some PostStatus.draft }

/-- `samplePost` after being published at time 5 / at time 3. -/
def cSamplePublished5 : Post :=
  { samplePost with status := PostStatus.published, publishedAt := some 5 }

def cPublished3 : Post :=
  { samplePost with status := PostStatus.published, publishedAt := some 3 }

/-- `cPublished3` after unpublishing (or a status-only update to draft):
back to draft, timestamp untouched. -/
def cUnpub3 : Post := { cPublished3 with status := PostStatus.draft }

/-- The stored post of the C7 counterexample: its slug was disambiguated to
`hello-world-1` at creation time (another post held `hello-world` then). -/
def cPostDedup : Post := { cHW1 with slug := toChars "hello-world-1" }

/-- An update request re-submitting the identical title `Hello World`. -/
def cReqSameTitle : PostUpdateRequest :=
  { title := toChars "Hello World", content := [], excerpt := [], featuredImg := []
    status := none, tagIDs := [] }

/-- What the C7 counterexample update produces: same title, slug
re-canonicalised to the freshly derived `hello-world`. -/
def cPostRecanon : Post := { cPostDedup with slug := toChars "hello-world" }

/-- A second stored post holding the slug `hello-world`, so that the C7
witness update collides. -/
def cHWOther : Post := { cHW1 with id := 2, authorID := 8 }

/-- Tags for the C7 witness. -/
def cTag : Tag :=
  { id := 1, name := toChars "Go", slug := toChars "go"
    description := [], color := toChars "#3B82F6" }

def cTagA : Tag :=
  { id := 1, name := toChars "Golang", slug := toChars "golang"
    description := [], color := toChars "#3B82F6" }

def cTagB : Tag :=
  { id := 2, name := toChars "Go", slug := toChars "go"
    description := [], color := toChars "#3B82F6" }

/-- A color-only tag update request. -/
def cTagReqColor : TagUpdateRequest :=
  { name := [], description := [], color := toChars "#FF0000" }

/-- A rename whose fresh slug (`go`) collides with `cTagB`. -/
def cTagReqRename : TagUpdateRequest :=
  { name := toChars "Go!", description := [], color := [] }

/-! ## Theorems -/

/-! ### C8: pagination clamping and ceiling division -/

/-- For a positive divisor and non-negative dividend, Go's
`(total + perPage - 1) / perPage` is exactly the ceiling of
`total / perPage`: the unique `q` with `p*(q-1) < total ≤ p*q`. -/
lemma tdiv_ceil_bounds (t p : Int) (ht : 0 ≤ t) (hp : 0 < p) :
    p * (Int.tdiv (t + p - 1) p - 1) < t ∧ t ≤ p * Int.tdiv (t + p - 1) p := by
  have ha : 0 ≤ t + p - 1 := by omega
  rw [Int.tdiv_eq_ediv ha (le_of_lt hp)]
  have hq := Int.ediv_add_emod (t + p - 1) p
  have hr0 : 0 ≤ (t + p - 1) % p := Int.emod_nonneg _ (by omega)
  have hrp : (t + p - 1) % p < p := Int.emod_lt_of_pos _ hp
  constructor
  · rw [mul_sub, mul_one]
    linarith
  · linarith

/-- C8: for all integers `page`, `perPage` and every non-negative `total`,
`CalculatePagination` clamps `page` to at least 1 (keeping in-range values),
clamps `perPage` into `[1, 100]` — out-of-range-low values become the
default 10, values above 100 become 100, in-range values are kept — and
computes `total_pages` as the ceiling of `total` divided by the clamped
`perPage` (characterised by `perPage*(totalPages-1) < total ≤
perPage*totalPages`). -/
theorem calculatePagination_clamps_and_ceils (page perPage total : Int)
    (htotal : 0 ≤ total) :
    1 ≤ (calculatePagination page perPage total).page ∧
    (1 ≤ page → (calculatePagination page perPage total).page = page) ∧
    (page < 1 → (calculatePagination page perPage total).page = 1) ∧
    1 ≤ (calculatePagination page perPage total).perPage ∧
    (calculatePagination page perPage total).perPage ≤ 100 ∧
    (perPage < 1 → (calculatePagination page perPage total).perPage = 10) ∧
    (1 ≤ perPage → perPage ≤ 100 →
      (calculatePagination page perPage total).perPage = perPage) ∧
    (100 < perPage → (calculatePagination page perPage total).perPage = 100) ∧
    (calculatePagination page perPage total).perPage *
        ((calculatePagination page perPage total).totalPages - 1) < total ∧
    total ≤ (calculatePagination page perPage total).perPage *
        (calculatePagination page perPage total).totalPages := by
  simp only [calculatePagination]
  split_ifs with h1 h2 h3 h4 <;>
    refine ⟨by omega, by omega, by omega, by omega, by omega, by omega, by omega, by omega, ?_, ?_⟩ <;>
    first
      | exact (tdiv_ceil_bounds total 10 htotal (by omega)).1
      | exact (tdiv_ceil_bounds total 10 htotal (by omega)).2
      | exact (tdiv_ceil_bounds total 100 htotal (by omega)).1
      | exact (tdiv_ceil_bounds total 100 htotal (by omega)).2
      | exact (tdiv_ceil_bounds total perPage htotal (by omega)).1
      | exact (tdiv_ceil_bounds total perPage htotal (by omega)).2

/-- Witness for C8 at the concrete inputs named by the claim: `total = 25`,
`per_page = 10` gives 3 pages; `total = 0` gives 0 pages; a requested
`per_page` of 500 is clamped to 100; a requested `page` of 0 is clamped
to 1. -/
theorem calculatePagination_clamps_and_ceils_witness :
    ((0 : Int) ≤ 25 ∧
      (calculatePagination 1 10 25).perPage * ((calculatePagination 1 10 25).totalPages - 1) < 25 ∧
      25 ≤ (calculatePagination 1 10 25).perPage * (calculatePagination 1 10 25).totalPages) ∧
    (calculatePagination 1 10 25).totalPages = 3 ∧
    (calculatePagination 1 10 0).totalPages = 0 ∧
    (calculatePagination 1 500 25).perPage = 100 ∧
    (calculatePagination 0 10 25).page = 1 := by
  refine ⟨⟨by decide, ?_, ?_⟩, by decide, by decide, by decide, by decide⟩
  · exact (calculatePagination_clamps_and_ceils 1 10 25 (by decide)).2.2.2.2.2.2.2.2.1
  · exact (calculatePagination_clamps_and_ceils 1 10 25 (by decide)).2.2.2.2.2.2.2.2.2

/-! ### C2: comments are always created pending -/

/-- C2: whatever the requester (the service passes no role flag at all —
admins take the same path), every comment successfully produced by
`CommentService.Create` has status `pending`. -/
theorem commentCreate_always_pending (authorID : Nat) (req : CommentCreateRequest)
    (posts : List Post) (comments : List Comment) (newID now : Nat)
    (c : Comment) (db' : List Comment)
    (h : commentCreate authorID req posts comments newID now = .ok (c, db')) :
    c.status = CommentStatus.pending := by
  unfold commentCreate at h
  split at h
  · exact absurd h (by simp)
  split at h
  · exact absurd h (by simp)
  dsimp only at h
  split at h
  · exact absurd h (by simp)
  simp only [Except.ok.injEq, Prod.mk.injEq] at h
  obtain ⟨hc, -⟩ := h
  rw [← hc]

/-- Witness for C2: a concrete comment created by a concrete request. -/
theorem commentCreate_always_pending_witness :
    commentCreate 9 ⟨toChars "nice post", 1, none⟩ [samplePost] [] 1 0 = .ok (cNice, [cNice]) ∧
    cNice.status = CommentStatus.pending := by
  have h : commentCreate 9 ⟨toChars "nice post", 1, none⟩ [samplePost] [] 1 0 =
      .ok (cNice, [cNice]) := rfl
  exact ⟨h, commentCreate_always_pending 9 ⟨toChars "nice post", 1, none⟩ [samplePost] [] 1 0
    cNice [cNice] h⟩

/-! ### C3: content edits and the moderation status -/

/-- C3: for an existing comment and a valid update request carrying non-empty
content: a non-admin author edit always resets the status to `pending`
(whatever it was before, including `approved`); an admin content edit leaves
the status unchanged when no status is supplied; and an admin request
carrying a status sets the status to exactly that value. -/
theorem commentUpdate_status_rules (commentID authorID : Nat)
    (req : CommentUpdateRequest) (isAdmin : Bool) (comments : List Comment)
    (comment : Comment) (c' : Comment) (db' : List Comment)
    (hfind : commentGetByID comments commentID = some comment)
    (h : commentUpdate commentID authorID req isAdmin comments = .ok (c', db')) :
    (isAdmin = false → req.content ≠ [] → c'.status = CommentStatus.pending) ∧
    (isAdmin = true → req.status = none → c'.status = comment.status) ∧
    (isAdmin = true → ∀ st, req.status = some st → c'.status = st) := by
  unfold commentUpdate at h
  rw [hfind] at h
  cases hval : commentUpdateReqValid req
  · rw [hval] at h; simp at h
  · rw [hval] at h
    simp only [Bool.not_true, Bool.false_eq_true, if_false] at h
    cases hauth : (!isAdmin && comment.authorID != authorID)
    · rw [hauth] at h
      simp only [Bool.false_eq_true, if_false, Except.ok.injEq, Prod.mk.injEq] at h
      obtain ⟨hc, -⟩ := h
      refine ⟨?_, ?_, ?_⟩
      · intro hadm hcont
        subst hadm
        rw [← hc]
        have hne : req.content.isEmpty = false := by
          cases hx : req.content with
          | nil => exact absurd hx hcont
          | cons a l => simp [hx]
        cases hst : req.status <;> simp [hst, hne]
      · intro hadm hst
        subst hadm
        rw [← hc]
        cases hx : req.content.isEmpty <;> simp [hst, hx]
      · intro hadm st hst
        subst hadm
        rw [← hc]
        cases hx : req.content.isEmpty <;> simp [hst, hx]
    · rw [hauth] at h; simp at h

/-- Witness for C3: a non-admin author edits their previously approved
comment and the status drops back to pending; an admin edit of the same
comment keeps `approved`; an admin setting `rejected` gets `rejected`. -/
theorem commentUpdate_status_rules_witness :
    commentUpdate 1 9 ⟨toChars "new", none⟩ false [cApproved] =
      .ok (cEdited CommentStatus.pending, [cEdited CommentStatus.pending]) ∧
    (cEdited CommentStatus.pending).status = CommentStatus.pending ∧
    commentUpdate 1 9 ⟨toChars "new", none⟩ true [cApproved] =
      .ok (cEdited CommentStatus.approved, [cEdited CommentStatus.approved]) ∧
    (cEdited CommentStatus.approved).status = cApproved.status ∧
    commentUpdate 1 9 ⟨toChars "new", some CommentStatus.rejected⟩ true [cApproved] =
      .ok (cEdited CommentStatus.rejected, [cEdited CommentStatus.rejected]) ∧
    (cEdited CommentStatus.rejected).status = CommentStatus.rejected := by
  refine ⟨rfl, ?_, rfl, ?_, rfl, ?_⟩
  · exact (commentUpdate_status_rules 1 9 ⟨toChars "new", none⟩ false [cApproved]
      cApproved (cEdited CommentStatus.pending) [cEdited CommentStatus.pending]
      rfl rfl).1 rfl (by decide)
  · exact (commentUpdate_status_rules 1 9 ⟨toChars "new", none⟩ true [cApproved]
      cApproved (cEdited CommentStatus.approved) [cEdited CommentStatus.approved]
      rfl rfl).2.1 rfl rfl
  · exact (commentUpdate_status_rules 1 9 ⟨toChars "new", some CommentStatus.rejected⟩ true
      [cApproved] cApproved (cEdited CommentStatus.rejected) [cEdited CommentStatus.rejected]
      rfl rfl).2.2 rfl CommentStatus.rejected rfl

/-! ### C9: comment deletion and orphaned replies -/

/-- Counterexample to C9: the claim fails for reply trees of depth two.  A
root comment, a reply, and a reply-to-the-reply are all built through the
service (`Create` only requires the parent to exist, so replies can nest
arbitrarily deep).  Deleting the root through the service removes only the
root and its direct reply; the grand-reply survives with a dangling
`parent_id`, so an orphaned reply remains. -/
theorem commentDelete_deep_orphan_counterexample :
    commentCreate 7 ⟨toChars "hi", 1, none⟩ [samplePost] [] 1 0 = .ok (cmt1, [cmt1]) ∧
    commentCreate 8 ⟨toChars "ho", 1, some 1⟩ [samplePost] [cmt1] 2 1 = .ok (cmt2, [cmt1, cmt2]) ∧
    commentCreate 9 ⟨toChars "he", 1, some 2⟩ [samplePost] [cmt1, cmt2] 3 2 = .ok (cmt3, [cmt1, cmt2, cmt3]) ∧
    noOrphans [cmt1, cmt2, cmt3] = true ∧
    commentServiceDelete 1 7 false [cmt1, cmt2, cmt3] = .ok [cmt3] ∧
    noOrphans [cmt3] = false := by
  exact ⟨rfl, rfl, rfl, by decide, rfl, by decide⟩

/-- C9 (amended): deleting a comment removes it and its direct replies; when
no surviving comment hangs below one of those direct replies (reply trees of
depth at most one under the deleted comment) an orphan-free store stays
orphan-free.  (For deeper trees the counterexample shows orphans remain.) -/
theorem commentRepoDelete_no_orphans_of_shallow (db : List Comment) (id : Nat)
    (hwf : noOrphans db = true)
    (hshallow : ∀ c ∈ db, c.parentID = some id → ∀ d ∈ db, d.parentID ≠ some c.id) :
    noOrphans (commentRepoDelete db id) = true := by
  unfold noOrphans at hwf ⊢
  unfold commentRepoDelete
  rw [List.all_eq_true] at hwf ⊢
  intro c hc
  have hcmem := hc
  rw [List.mem_filter] at hcmem
  obtain ⟨hc1, hcid⟩ := hcmem
  rw [List.mem_filter] at hc1
  obtain ⟨hcdb, hcpar⟩ := hc1
  cases hpc : c.parentID with
  | none => simp
  | some p =>
    have hw := hwf c hcdb
    rw [hpc] at hw
    simp only at hw ⊢
    rw [List.any_eq_true] at hw
    obtain ⟨d, hd, hdid⟩ := hw
    rw [List.any_eq_true]
    refine ⟨d, ?_, hdid⟩
    have hdidp : d.id = p := by simpa using hdid
    have hpne : p ≠ id := by
      intro he
      rw [hpc, he] at hcpar
      simp at hcpar
    rw [List.mem_filter, List.mem_filter]
    refine ⟨⟨hd, ?_⟩, ?_⟩
    · cases hdp : d.parentID with
      | none => simp
      | some q =>
        have hqne : q ≠ id := by
          intro he
          subst he
          exact hshallow d hd hdp c hcdb (by rw [hpc, hdidp])
        simp [hqne]
    · simp [hdidp, hpne]

/-- Witness for C9 (amended): deleting the root of a depth-one chain leaves
no orphans. -/
theorem commentRepoDelete_no_orphans_of_shallow_witness :
    noOrphans [cmt1, cmt2] = true ∧
    noOrphans (commentRepoDelete [cmt1, cmt2] 1) = true := by
  exact ⟨by decide, commentRepoDelete_no_orphans_of_shallow [cmt1, cmt2] 1 (by decide) (by decide)⟩

/-! ### C10: the public post-comments listing shows only approved content -/

/-- Membership is invariant under the insertion step. -/
lemma mem_insertSorted {α : Type} (le : α → α → Bool) (a x : α) :
    ∀ l : List α, x ∈ insertSorted le a l ↔ x = a ∨ x ∈ l := by
  intro l
  induction l with
  | nil => simp [insertSorted]
  | cons b rest ih =>
    simp only [insertSorted]
    split
    · simp [or_comm, or_assoc, or_left_comm]
    · simp only [List.mem_cons, ih]
      tauto

/-- Membership is invariant under the `ORDER BY` sort. -/
lemma mem_sortBy {α : Type} (le : α → α → Bool) (x : α) :
    ∀ l : List α, x ∈ sortBy le l ↔ x ∈ l := by
  intro l
  induction l with
  | nil => simp [sortBy]
  | cons a rest ih =>
    simp only [sortBy, mem_insertSorted, ih, List.mem_cons]

/-- C10: every top-level comment returned by `CommentRepository.GetByPost`
is approved, has a null `parent_id` and belongs to the requested post; every
reply nested under it is approved (so pending or rejected comments never
appear); and the returned total counts exactly the approved top-level
comments of the post. -/
theorem commentGetByPost_approved_only (db : List Comment) (postID offset limit : Nat) :
    (∀ x ∈ (commentGetByPost db postID offset limit).1,
      x.1.status = CommentStatus.approved ∧ x.1.parentID = none ∧ x.1.postID = postID ∧
      ∀ r ∈ x.2, r.status = CommentStatus.approved) ∧
    (commentGetByPost db postID offset limit).2 =
      db.countP (fun c => c.postID == postID && c.parentID == none &&
        c.status == CommentStatus.approved) := by
  constructor
  · intro x hx
    unfold commentGetByPost at hx
    simp only at hx
    rw [List.mem_map] at hx
    obtain ⟨c, hc, rfl⟩ := hx
    have hc2 := List.take_subset _ _ hc
    have hc3 := List.drop_subset _ _ hc2
    rw [mem_sortBy, List.mem_filter] at hc3
    obtain ⟨-, hprops⟩ := hc3
    simp only [Bool.and_eq_true, beq_iff_eq] at hprops
    obtain ⟨⟨hpost, hpar⟩, hstat⟩ := hprops
    refine ⟨hstat, hpar, hpost, ?_⟩
    intro r hr
    unfold approvedReplies at hr
    rw [mem_sortBy, List.mem_filter] at hr
    obtain ⟨-, hrprops⟩ := hr
    simp only [Bool.and_eq_true, beq_iff_eq] at hrprops
    exact hrprops.2
  · unfold commentGetByPost
    simp only
    rw [List.countP_eq_length_filter]

/-- Witness for C10: on a store holding an approved top-level comment, a
pending top-level comment and an approved reply, the listing returns exactly
the approved pair and counts one top-level comment. -/
theorem commentGetByPost_approved_only_witness :
    (cListTop, [cListReply]) ∈ (commentGetByPost cListDB 1 0 10).1 ∧
    (cListTop.status = CommentStatus.approved ∧ cListTop.parentID = none ∧
      cListTop.postID = 1 ∧ ∀ r ∈ [cListReply], r.status = CommentStatus.approved) ∧
    (commentGetByPost cListDB 1 0 10).2 = 1 := by
  have hmem : (cListTop, [cListReply]) ∈ (commentGetByPost cListDB 1 0 10).1 := by decide
  refine ⟨hmem, (commentGetByPost_approved_only cListDB 1 0 10).1 _ hmem, ?_⟩
  rw [(commentGetByPost_approved_only cListDB 1 0 10).2]
  decide

/-! ### Slug pipeline lemmas (for C4 and C5) -/

/-- Every character the run-replacement emits is either the replacement or a
character the regex class keeps. -/
lemma mem_collapseRuns (bad : Char → Bool) (rep : Char) :
    ∀ (b : Bool) (l : Str), ∀ c ∈ collapseRuns bad rep b l, c = rep ∨ bad c = false := by
  intro b l
  induction l generalizing b with
  | nil => simp [collapseRuns]
  | cons a rest ih =>
    intro c hc
    cases hba : bad a
    · simp only [collapseRuns, hba, Bool.false_eq_true, if_false, List.mem_cons] at hc
      rcases hc with rfl | hc
      · exact Or.inr hba
      · exact ih _ c hc
    · cases b
      · simp only [collapseRuns, hba, if_true, Bool.false_eq_true, if_false,
          List.mem_cons] at hc
        rcases hc with rfl | hc
        · exact Or.inl rfl
        · exact ih _ c hc
      · simp only [collapseRuns, hba, if_true] at hc
        exact ih _ c hc

/-- While inside a run, the replacement output never begins with a character
of the replaced class (in particular never with the replacement itself, when
the replacement is in the class). -/
lemma collapseRuns_true_head (bad : Char → Bool) (rep : Char) :
    ∀ (l : Str) (c : Char), (collapseRuns bad rep true l).head? = some c → bad c = false := by
  intro l
  induction l with
  | nil => simp [collapseRuns]
  | cons a rest ih =>
    intro c hc
    cases hba : bad a
    · simp only [collapseRuns, hba, Bool.false_eq_true, if_false, List.head?_cons,
        Option.some.injEq] at hc
      subst hc
      exact hba
    · simp only [collapseRuns, hba, if_true] at hc
      exact ih c hc

/-- Unfolding `hasDoubleHyphen` one step. -/
lemma hasDoubleHyphen_cons (c : Char) (l : Str) :
    hasDoubleHyphen (c :: l) =
      ((match l.head? with | some d => isHyphen c && isHyphen d | none => false) ||
        hasDoubleHyphen l) := by
  cases l <;> simp [hasDoubleHyphen]

/-- The hyphen is not an `[a-z0-9]` character. -/
lemma isSlugChar_ne_hyphen (c : Char) (h : isSlugChar c = true) : isHyphen c = false := by
  cases hc : isHyphen c
  · rfl
  · have hceq : c = '-' := beq_iff_eq.mp (by simpa [isHyphen] using hc)
    subst hceq
    exact absurd h (by decide)

/-- The slug run-replacement never produces two consecutive hyphens. -/
lemma hasDoubleHyphen_collapseRuns :
    ∀ (b : Bool) (l : Str),
      hasDoubleHyphen (collapseRuns (fun c => !isSlugChar c) '-' b l) = false := by
  intro b l
  induction l generalizing b with
  | nil => cases b <;> simp [collapseRuns, hasDoubleHyphen]
  | cons a rest ih =>
    cases hsa : isSlugChar a
    · cases b
      · simp only [collapseRuns, hsa, Bool.not_false, if_true, Bool.false_eq_true, if_false]
        rw [hasDoubleHyphen_cons]
        cases hh : (collapseRuns (fun c => !isSlugChar c) '-' true rest).head? with
        | none => simp [ih true]
        | some d =>
          have hd : isSlugChar d = true := by
            simpa using collapseRuns_true_head (fun c => !isSlugChar c) '-' rest d hh
          simp [isSlugChar_ne_hyphen d hd, ih true]
      · simp only [collapseRuns, hsa, Bool.not_false, if_true]
        exact ih true
    · simp only [collapseRuns, hsa, Bool.not_true, Bool.false_eq_true, if_false]
      rw [hasDoubleHyphen_cons]
      cases hh : (collapseRuns (fun c => !isSlugChar c) '-' false rest).head? with
      | none => simp [ih false]
      | some d => simp [isSlugChar_ne_hyphen a hsa, ih false]

/-- Trimming from the left is dropping a prefix. -/
lemma trimLeftP_eq_drop (p : Char → Bool) :
    ∀ l : Str, ∃ n, trimLeftP p l = l.drop n := by
  intro l
  induction l with
  | nil => exact ⟨0, rfl⟩
  | cons a rest ih =>
    cases hpa : p a
    · exact ⟨0, by simp [trimLeftP, hpa]⟩
    · obtain ⟨n, hn⟩ := ih
      exact ⟨n + 1, by simp [trimLeftP, hpa, hn]⟩

/-- Trimming from the right is taking a prefix. -/
lemma trimRightP_eq_take (p : Char → Bool) :
    ∀ l : Str, ∃ n, trimRightP p l = l.take n := by
  intro l
  induction l with
  | nil => exact ⟨0, rfl⟩
  | cons a rest ih =>
    obtain ⟨n, hn⟩ := ih
    simp only [trimRightP]
    cases hr : trimRightP p rest with
    | nil =>
      cases hpa : p a
      · exact ⟨1, by simp [hpa]⟩
      · exact ⟨0, by simp [hpa]⟩
    | cons b r' =>
      refine ⟨n + 1, ?_⟩
      have hbr : b :: r' = rest.take n := by rw [← hr, hn]
      simp only [List.take_succ_cons, ← hbr]

/-- `hasDoubleHyphen` never appears by taking a prefix. -/
lemma hasDoubleHyphen_take :
    ∀ (l : Str) (n : Nat), hasDoubleHyphen l = false → hasDoubleHyphen (l.take n) = false := by
  intro l
  induction l with
  | nil => intro n _; simp [List.take_nil, hasDoubleHyphen]
  | cons a rest ih =>
    intro n h
    cases n with
    | zero => simp [hasDoubleHyphen]
    | succ m =>
      rw [hasDoubleHyphen_cons] at h
      simp only [Bool.or_eq_false_iff] at h
      obtain ⟨h1, h2⟩ := h
      simp only [List.take_succ_cons]
      rw [hasDoubleHyphen_cons]
      simp only [Bool.or_eq_false_iff]
      refine ⟨?_, ih m h2⟩
      cases hm : (rest.take m).head? with
      | none => rfl
      | some d =>
        have : rest.head? = some d := by
          cases rest with
          | nil => simp at hm
          | cons b r' =>
            cases m with
            | zero => simp at hm
            | succ k => simpa using hm
        rw [this] at h1
        exact h1

/-- `hasDoubleHyphen` never appears by dropping a prefix. -/
lemma hasDoubleHyphen_drop :
    ∀ (l : Str) (n : Nat), hasDoubleHyphen l = false → hasDoubleHyphen (l.drop n) = false := by
  intro l
  induction l with
  | nil => intro n _; simp [List.drop_nil, hasDoubleHyphen]
  | cons a rest ih =>
    intro n h
    rw [hasDoubleHyphen_cons] at h
    simp only [Bool.or_eq_false_iff] at h
    cases n with
    | zero =>
      rw [List.drop_zero, hasDoubleHyphen_cons]
      simp [h.1, h.2]
    | succ m => exact ih m h.2

/-- The first character surviving a left trim fails the trimmed class. -/
lemma trimLeftP_head (p : Char → Bool) :
    ∀ (l : Str) (c : Char), (trimLeftP p l).head? = some c → p c = false := by
  intro l
  induction l with
  | nil => simp [trimLeftP]
  | cons a rest ih =>
    intro c hc
    cases hpa : p a
    · simp only [trimLeftP, hpa, Bool.false_eq_true, if_false, List.head?_cons,
        Option.some.injEq] at hc
      subst hc
      exact hpa
    · simp only [trimLeftP, hpa, if_true] at hc
      exact ih c hc

/-- A right trim keeps the head (or empties the list). -/
lemma trimRightP_head (p : Char → Bool) :
    ∀ l : Str, trimRightP p l = [] ∨ (trimRightP p l).head? = l.head? := by
  intro l
  induction l with
  | nil => exact Or.inl rfl
  | cons a rest _ =>
    simp only [trimRightP]
    cases hr : trimRightP p rest with
    | nil =>
      cases hpa : p a
      · exact Or.inr (by simp [hpa])
      · exact Or.inl (by simp [hpa])
    | cons b r' => exact Or.inr rfl

/-- The last character surviving a right trim fails the trimmed class. -/
lemma trimRightP_getLast (p : Char → Bool) :
    ∀ (l : Str) (c : Char), (trimRightP p l).getLast? = some c → p c = false := by
  intro l
  induction l with
  | nil => simp [trimRightP]
  | cons a rest ih =>
    intro c hc
    simp only [trimRightP] at hc
    cases hr : trimRightP p rest with
    | nil =>
      rw [hr] at hc
      cases hpa : p a
      · simp only [hpa, Bool.false_eq_true, if_false, List.getLast?_singleton,
          Option.some.injEq] at hc
        subst hc
        exact hpa
      · simp [hpa] at hc
    | cons b r' =>
      rw [hr] at hc
      rw [List.getLast?_cons_cons] at hc
      rw [← hr] at hc
      exact ih c hc

/-- Membership carries through a left trim. -/
lemma trimLeftP_subset (p : Char → Bool) (l : Str) : ∀ c ∈ trimLeftP p l, c ∈ l := by
  obtain ⟨n, hn⟩ := trimLeftP_eq_drop p l
  rw [hn]
  exact fun c hc => List.drop_subset n l hc

/-- Membership carries through a right trim. -/
lemma trimRightP_subset (p : Char → Bool) (l : Str) : ∀ c ∈ trimRightP p l, c ∈ l := by
  obtain ⟨n, hn⟩ := trimRightP_eq_take p l
  rw [hn]
  exact fun c hc => List.take_subset n l hc

/-- Membership carries through a full trim. -/
lemma trimBoth_subset (p : Char → Bool) (l : Str) : ∀ c ∈ trimBoth p l, c ∈ l :=
  fun c hc => trimLeftP_subset p l c (trimRightP_subset p _ c hc)

/-- A full trim keeps `hasDoubleHyphen` away. -/
lemma hasDoubleHyphen_trimBoth (p : Char → Bool) (l : Str)
    (h : hasDoubleHyphen l = false) : hasDoubleHyphen (trimBoth p l) = false := by
  unfold trimBoth
  obtain ⟨n, hn⟩ := trimLeftP_eq_drop p l
  obtain ⟨m, hm⟩ := trimRightP_eq_take p (trimLeftP p l)
  rw [hm, hn]
  exact hasDoubleHyphen_take _ m (hasDoubleHyphen_drop l n h)

/-- The head surviving a full trim fails the trimmed class. -/
lemma trimBoth_head (p : Char → Bool) (l : Str) :
    ∀ c, (trimBoth p l).head? = some c → p c = false := by
  intro c hc
  unfold trimBoth at hc
  rcases trimRightP_head p (trimLeftP p l) with he | hh
  · rw [he] at hc; simp at hc
  · rw [hh] at hc
    exact trimLeftP_head p l c hc

/-- The last character surviving a full trim fails the trimmed class. -/
lemma trimBoth_getLast (p : Char → Bool) (l : Str) :
    ∀ c, (trimBoth p l).getLast? = some c → p c = false :=
  fun c hc => trimRightP_getLast p _ c hc

/-- Length never grows under a full trim. -/
lemma trimBoth_length_le (p : Char → Bool) (l : Str) :
    (trimBoth p l).length ≤ l.length := by
  unfold trimBoth
  obtain ⟨n, hn⟩ := trimLeftP_eq_drop p l
  obtain ⟨m, hm⟩ := trimRightP_eq_take p (trimLeftP p l)
  rw [hm, hn]
  calc ((l.drop n).take m).length ≤ (l.drop n).length := by
        simpa using List.length_take_le m (l.drop n)
    _ ≤ l.length := by simp [List.length_drop]

/-- Every character of the slug candidate is `[a-z0-9]` or a hyphen, the
candidate has no double hyphen, and it neither starts nor ends with a
hyphen. -/
lemma slugCandidate_facts (text : Str) :
    (∀ c ∈ slugCandidate text, isSlugChar c = true ∨ c = '-') ∧
    hasDoubleHyphen (slugCandidate text) = false ∧
    (∀ c, (slugCandidate text).head? = some c → isHyphen c = false) ∧
    (∀ c, (slugCandidate text).getLast? = some c → isHyphen c = false) := by
  refine ⟨?_, ?_, ?_, ?_⟩
  · intro c hc
    have := trimBoth_subset isHyphen _ c hc
    rcases mem_collapseRuns _ '-' false _ c this with rfl | hbad
    · exact Or.inr rfl
    · exact Or.inl (by simpa using hbad)
  · exact hasDoubleHyphen_trimBoth isHyphen _ (hasDoubleHyphen_collapseRuns false _)
  · exact fun c hc => trimBoth_head isHyphen _ c hc
  · exact fun c hc => trimBoth_getLast isHyphen _ c hc

/-! ### C4: generated slugs are well-formed -/

/-- C4: for every input title, `GenerateSlug` returns a string containing
only lowercase ASCII alphanumerics (`[a-z0-9]`) and hyphens, with no two
consecutive hyphens, no leading or trailing hyphen, and length at most 100
(`slugWellFormed` states exactly these five facts). -/
theorem generateSlug_wellFormed (text : Str) :
    slugWellFormed (generateSlug text) = true := by
  obtain ⟨hchar, hdouble, hhead, hlast⟩ := slugCandidate_facts text
  have key : ∀ s : Str,
      (∀ c ∈ s, isSlugChar c = true ∨ c = '-') →
      hasDoubleHyphen s = false →
      (∀ c, s.head? = some c → isHyphen c = false) →
      (∀ c, s.getLast? = some c → isHyphen c = false) →
      s.length ≤ 100 →
      slugWellFormed s = true := by
    intro s h1 h2 h3 h4 h5
    unfold slugWellFormed
    have ha : s.all (fun c => isSlugChar c || isHyphen c) = true := by
      rw [List.all_eq_true]
      intro c hc
      rcases h1 c hc with hs | rfl
      · simp [hs]
      · simp [isHyphen]
    have hh : (match s.head? with | some c => isHyphen c | none => false) = false := by
      cases hs : s.head? with
      | none => rfl
      | some c => exact h3 c hs
    have hl : (match s.getLast? with | some c => isHyphen c | none => false) = false := by
      cases hs : s.getLast? with
      | none => rfl
      | some c => exact h4 c hs
    rw [ha, h2, hh, hl]
    simp [h5]
  show slugWellFormed (if (slugCandidate text).length > 100 then
    trimBoth isHyphen ((slugCandidate text).take 100) else slugCandidate text) = true
  split
  · next hlen =>
    refine key _ ?_ ?_ ?_ ?_ ?_
    · intro c hc
      exact hchar c (List.take_subset 100 _ (trimBoth_subset isHyphen _ c hc))
    · exact hasDoubleHyphen_trimBoth isHyphen _
        (hasDoubleHyphen_take _ 100 hdouble)
    · exact fun c hc => trimBoth_head isHyphen _ c hc
    · exact fun c hc => trimBoth_getLast isHyphen _ c hc
    · calc (trimBoth isHyphen ((slugCandidate text).take 100)).length
          ≤ ((slugCandidate text).take 100).length := trimBoth_length_le _ _
        _ ≤ 100 := by simpa using List.length_take_le 100 (slugCandidate text)
  · next hlen =>
    exact key _ hchar hdouble hhead hlast (by omega)

/-! ### C5: what the length cap actually does -/

/-- Taking a positive count preserves the head. -/
lemma head?_take (l : Str) (n : Nat) (h : 0 < n) : (l.take n).head? = l.head? := by
  cases l with
  | nil => simp
  | cons a rest =>
    cases n with
    | zero => omega
    | succ m => simp

/-- A left trim is the identity when the head already fails the class. -/
lemma trimLeftP_id (p : Char → Bool) (l : Str)
    (h : ∀ c, l.head? = some c → p c = false) : trimLeftP p l = l := by
  cases l with
  | nil => rfl
  | cons a rest => simp [trimLeftP, h a rfl]

/-- Counterexample to C5.  For the title `aa…a bbbb` (98 `a`s), the candidate
slug `aa…a-bbbb` is 103 characters, so the cap truncates it to 100, landing
in the middle of the word `bbbb`.  The code does NOT trim back to the last
hyphen boundary (which would give the bare 98 `a`s): it keeps the cut-off
fragment, and the result ends in `b` — a word fragment cut mid-word (the
dropped remainder `bbb` of that word follows at position 100). -/
theorem generateSlug_midword_truncation_counterexample :
    100 < (slugCandidate midWordTitle).length ∧
    generateSlug midWordTitle = List.replicate 98 'a' ++ ['-', 'b'] ∧
    (generateSlug midWordTitle).getLast? = some 'b' ∧ isSlugChar 'b' = true ∧
    (slugCandidate midWordTitle).drop 100 = ['b', 'b', 'b'] ∧
    generateSlug midWordTitle ≠ List.replicate 98 'a' := by decide

/-- C5 (amended): when the candidate slug exceeds 100 characters,
`GenerateSlug` truncates it to exactly 100 characters and strips trailing
hyphens from the cut (leading ones cannot occur); no word-boundary trimming
takes place, so the result may end mid-word.  The result stays within 100
characters. -/
theorem generateSlug_truncates_bytewise (text : Str)
    (h : 100 < (slugCandidate text).length) :
    generateSlug text = trimRightP isHyphen ((slugCandidate text).take 100) ∧
    (generateSlug text).length ≤ 100 := by
  have hgen : generateSlug text = trimBoth isHyphen ((slugCandidate text).take 100) := by
    show (if (slugCandidate text).length > 100 then
      trimBoth isHyphen ((slugCandidate text).take 100) else slugCandidate text) = _
    rw [if_pos (by omega)]
  constructor
  · rw [hgen]
    unfold trimBoth
    rw [trimLeftP_id]
    intro c hc
    rw [head?_take _ _ (by omega)] at hc
    exact (slugCandidate_facts text).2.2.1 c hc
  · rw [hgen]
    calc (trimBoth isHyphen ((slugCandidate text).take 100)).length
        ≤ ((slugCandidate text).take 100).length := trimBoth_length_le _ _
      _ ≤ 100 := by simpa using List.length_take_le 100 (slugCandidate text)

/-- Witness for C5 (amended) at the counterexample title. -/
theorem generateSlug_truncates_bytewise_witness :
    100 < (slugCandidate midWordTitle).length ∧
    generateSlug midWordTitle = trimRightP isHyphen ((slugCandidate midWordTitle).take 100) ∧
    (generateSlug midWordTitle).length ≤ 100 := by
  refine ⟨by decide, ?_⟩
  exact generateSlug_truncates_bytewise midWordTitle (by decide)

/-! ### C6: the slug uniqueness retry loop -/

/-- A slug never equals itself with a `-N` suffix appended (the suffix makes
it strictly longer). -/
lemma beq_numberedSlug_self (s : Str) (k : Nat) : (s == numberedSlug s k) = false := by
  apply beq_eq_false_iff_ne.mpr
  intro he
  have hlen := congrArg List.length he
  simp [numberedSlug] at hlen

/-- One step of the retry loop. -/
lemma uniqueSlugLoop_succ (isTaken : Str → Bool) (orig slug : Str) (counter fuel : Nat) :
    uniqueSlugLoop isTaken orig slug counter (fuel + 1) =
      if isTaken slug then
        uniqueSlugLoop isTaken orig (numberedSlug orig counter) (counter + 1) fuel
      else slug := rfl

/-- The retry loop, started at attempt `m` with counter `m + 1`, walks the
attempt sequence `orig`, `orig-1`, `orig-2`, … and stops at the first
untaken attempt (given enough fuel). -/
lemma uniqueSlugLoop_spec (isTaken : Str → Bool) (orig : Str) :
    ∀ (fuel m k : Nat), m ≤ k → k - m < fuel →
      (∀ i, m ≤ i → i < k → isTaken (slugAttempt orig i) = true) →
      isTaken (slugAttempt orig k) = false →
      uniqueSlugLoop isTaken orig (slugAttempt orig m) (m + 1) fuel = slugAttempt orig k := by
  intro fuel
  induction fuel with
  | zero => intro m k h1 h2 _ _; omega
  | succ fuel ih =>
    intro m k h1 h2 htaken hfree
    rw [uniqueSlugLoop_succ]
    by_cases hk : m = k
    · subst hk
      rw [hfree]
      simp
    · have hlt : m < k := by omega
      rw [htaken m (le_refl m) hlt]
      simp only [if_true]
      have hstep : numberedSlug orig (m + 1) = slugAttempt orig (m + 1) := rfl
      rw [hstep]
      exact ih (m + 1) k (by omega) (by omega)
        (fun i hi1 hi2 => htaken i (by omega) hi2) hfree

/-- Inversion of a successful `postService.Create`: the stored slug comes
from the uniqueness retry on the title-derived candidate, status is taken
from the request, the publication timestamp is set exactly when the request
status is `published`, and the row is appended. -/
lemma postCreate_ok_fields (now authorID : Nat) (req : PostCreateRequest)
    (db : List Post) (newID : Nat) (p : Post) (db' : List Post)
    (h : postCreate now authorID req db newID = .ok (p, db')) :
    p.slug = ensureUniqueSlug (fun s => postIsSlugTaken db s 0)
      (generateSlug req.title) (db.length + 1) ∧
    p.status = req.status ∧
    p.publishedAt = (if req.status = PostStatus.published then some now else none) ∧
    db' = db ++ [p] := by
  unfold postCreate at h
  cases hval : postCreateReqValid req
  · rw [hval] at h; simp at h
  · rw [hval] at h
    simp only [Bool.not_true, Bool.false_eq_true, if_false, Except.ok.injEq,
      Prod.mk.injEq] at h
    obtain ⟨hp, hdb⟩ := h
    subst hp
    exact ⟨rfl, rfl, rfl, hdb.symm⟩

/-- C6: the uniqueness retry assigns the first untaken member of the
sequence candidate, candidate-1, candidate-2, … (first conjunct, for any
taken-predicate, covering the identical loops in `postService.Create` and
`tagService.Create`); in particular two successive creations with identical
titles yield distinct slugs, the second being the first's slug with `-1`
appended (second conjunct). -/
theorem slug_collision_suffix_rules :
    (∀ (isTaken : Str → Bool) (orig : Str) (fuel k : Nat), k < fuel →
      (∀ i, i < k → isTaken (slugAttempt orig i) = true) →
      isTaken (slugAttempt orig k) = false →
      ensureUniqueSlug isTaken orig fuel = slugAttempt orig k) ∧
    (∀ (now a1 a2 : Nat) (req : PostCreateRequest) (p1 p2 : Post) (db1 db2 : List Post),
      postCreate now a1 req [] 1 = .ok (p1, db1) →
      postCreate now a2 req db1 2 = .ok (p2, db2) →
      p1.slug = generateSlug req.title ∧
      p2.slug = numberedSlug (generateSlug req.title) 1 ∧
      p1.slug ≠ p2.slug) := by
  constructor
  · intro isTaken orig fuel k hk htaken hfree
    exact uniqueSlugLoop_spec isTaken orig fuel 0 k (Nat.zero_le k) (by omega)
      (fun i _ hi => htaken i hi) hfree
  · intro now a1 a2 req p1 p2 db1 db2 h1 h2
    obtain ⟨hs1, -, -, hdb1⟩ := postCreate_ok_fields now a1 req [] 1 p1 db1 h1
    have hp1slug : p1.slug = generateSlug req.title := by rw [hs1]; rfl
    subst hdb1
    obtain ⟨hs2, -, -, -⟩ := postCreate_ok_fields now a2 req ([] ++ [p1]) 2 p2 db2 h2
    have htaken1 : postIsSlugTaken ([] ++ [p1]) (generateSlug req.title) 0 = true := by
      simp [postIsSlugTaken, hp1slug]
    have hfree1 : postIsSlugTaken ([] ++ [p1])
        (numberedSlug (generateSlug req.title) 1) 0 = false := by
      simp [postIsSlugTaken, hp1slug, beq_numberedSlug_self]
    have hp2slug : p2.slug = numberedSlug (generateSlug req.title) 1 := by
      rw [hs2]
      exact uniqueSlugLoop_spec (fun s => postIsSlugTaken ([] ++ [p1]) s 0)
        (generateSlug req.title) 2 0 1 (by omega) (by omega)
        (fun i _ hi => by
          have h0 : i = 0 := by omega
          subst h0
          exact htaken1)
        hfree1
    refine ⟨hp1slug, hp2slug, ?_⟩
    rw [hp1slug, hp2slug]
    exact beq_eq_false_iff_ne.mp (beq_numberedSlug_self _ 1)

/-- Witness for C6: a concrete taken-set for the loop, and the concrete
two-post scenario with title `Hello World`. -/
theorem slug_collision_suffix_rules_witness :
    ensureUniqueSlug (fun s => s == toChars "hello-world") (toChars "hello-world") 5 =
      toChars "hello-world-1" ∧
    postCreate 0 7 cReqDraft [] 1 = .ok (cHW1, [cHW1]) ∧
    postCreate 0 8 cReqDraft [cHW1] 2 = .ok (cHW2, [cHW1, cHW2]) ∧
    cHW1.slug = toChars "hello-world" ∧ cHW2.slug = toChars "hello-world-1" ∧
    cHW1.slug ≠ cHW2.slug := by
  refine ⟨?_, rfl, rfl, rfl, rfl, by decide⟩
  exact slug_collision_suffix_rules.1 (fun s => s == toChars "hello-world")
    (toChars "hello-world") 5 1 (by omega)
    (fun i hi => by
      have h0 : i = 0 := by omega
      subst h0
      decide)
    (by decide)

/-! ### C1: the publication timestamp lifecycle -/

/-- The title block never touches status or the publication timestamp. -/
lemma postApplyTitle_frame (req : PostUpdateRequest) (db : List Post)
    (postID : Nat) (post : Post) :
    (postApplyTitle req db postID post).status = post.status ∧
    (postApplyTitle req db postID post).publishedAt = post.publishedAt := by
  unfold postApplyTitle
  split
  · dsimp only
    split <;> exact ⟨rfl, rfl⟩
  · exact ⟨rfl, rfl⟩

/-- The content block only touches the content field. -/
lemma postApplyContent_frame (req : PostUpdateRequest) (post : Post) :
    (postApplyContent req post).slug = post.slug ∧
    (postApplyContent req post).status = post.status ∧
    (postApplyContent req post).publishedAt = post.publishedAt := by
  unfold postApplyContent
  split <;> exact ⟨rfl, rfl, rfl⟩

/-- The excerpt block only touches the excerpt field. -/
lemma postApplyExcerpt_frame (req : PostUpdateRequest) (post : Post) :
    (postApplyExcerpt req post).slug = post.slug ∧
    (postApplyExcerpt req post).status = post.status ∧
    (postApplyExcerpt req post).publishedAt = post.publishedAt := by
  unfold postApplyExcerpt
  split
  · exact ⟨rfl, rfl, rfl⟩
  · split <;> exact ⟨rfl, rfl, rfl⟩

/-- The featured-image block only touches the image field. -/
lemma postApplyImg_frame (req : PostUpdateRequest) (post : Post) :
    (postApplyImg req post).slug = post.slug ∧
    (postApplyImg req post).status = post.status ∧
    (postApplyImg req post).publishedAt = post.publishedAt := by
  unfold postApplyImg
  split <;> exact ⟨rfl, rfl, rfl⟩

/-- The status block never touches the slug. -/
lemma postApplyStatus_slug (now : Nat) (req : PostUpdateRequest) (post : Post) :
    (postApplyStatus now req post).slug = post.slug := by
  unfold postApplyStatus
  cases req.status with
  | none => rfl
  | some st =>
    dsimp only
    split
    · split <;> rfl
    · rfl

/-- The status block sets the publication timestamp on a transition into
`published` when the timestamp is still unset. -/
lemma postApplyStatus_publishedAt_set (now : Nat) (req : PostUpdateRequest)
    (post : Post) (hst : req.status = some PostStatus.published)
    (hne : post.status ≠ PostStatus.published) (hnone : post.publishedAt = none) :
    (postApplyStatus now req post).publishedAt = some now := by
  unfold postApplyStatus
  rw [hst]
  simp [Ne.symm hne, hnone]

/-- The status block never touches an already-set publication timestamp. -/
lemma postApplyStatus_publishedAt_keep (now : Nat) (req : PostUpdateRequest)
    (post : Post) (h : post.publishedAt ≠ none) :
    (postApplyStatus now req post).publishedAt = post.publishedAt := by
  unfold postApplyStatus
  cases req.status with
  | none => rfl
  | some st =>
    dsimp only
    split
    · have hcond : (decide (st = PostStatus.published) &&
          decide ((Post.mk post.id post.title post.slug post.content post.excerpt
            post.featuredImg st post.viewCount post.authorID post.publishedAt).publishedAt
              = none)) = false := by
        simp only [Bool.and_eq_false_iff, decide_eq_false_iff_not]
        exact Or.inr h
      rw [hcond]
      simp
    · rfl

/-- Inversion of a successful `postService.Update`: the stored row is the
fetched row with the five field blocks applied in source order. -/
lemma postUpdate_ok (now postID authorID : Nat) (req : PostUpdateRequest)
    (isAdmin : Bool) (db : List Post) (post p : Post) (db' : List Post)
    (hfind : postGetByID db postID = some post)
    (h : postUpdate now postID authorID req isAdmin db = .ok (p, db')) :
    p = postApplyStatus now req (postApplyImg req (postApplyExcerpt req
      (postApplyContent req (postApplyTitle req db postID post)))) ∧
    db' = postSave db p := by
  unfold postUpdate at h
  rw [hfind] at h
  cases hval : postUpdateReqValid req
  · rw [hval] at h; simp at h
  · rw [hval] at h
    simp only [Bool.not_true, Bool.false_eq_true, if_false] at h
    cases hauth : (!isAdmin && post.authorID != authorID)
    · rw [hauth] at h
      simp only [Bool.false_eq_true, if_false, Except.ok.injEq, Prod.mk.injEq] at h
      refine ⟨h.1.symm, ?_⟩
      rw [← h.2, ← h.1]
    · rw [hauth] at h; simp at h

/-- Inversion of a successful `postService.Publish`. -/
lemma postPublish_ok (now postID authorID : Nat) (isAdmin : Bool)
    (db : List Post) (post p : Post) (db' : List Post)
    (hfind : postGetByID db postID = some post)
    (h : postPublish now postID authorID isAdmin db = .ok (p, db')) :
    p.status = PostStatus.published ∧
    p.publishedAt = (if post.publishedAt = none then some now else post.publishedAt) := by
  unfold postPublish at h
  rw [hfind] at h
  dsimp only at h
  cases hauth : (!isAdmin && post.authorID != authorID)
  · rw [hauth] at h
    simp only [Bool.false_eq_true, if_false, Except.ok.injEq, Prod.mk.injEq] at h
    obtain ⟨hp, -⟩ := h
    rw [← hp]
    cases hpn : post.publishedAt <;> simp [hpn]
  · rw [hauth] at h; simp at h

/-- Inversion of a successful `postService.Unpublish`. -/
lemma postUnpublish_ok (postID authorID : Nat) (isAdmin : Bool)
    (db : List Post) (post p : Post) (db' : List Post)
    (hfind : postGetByID db postID = some post)
    (h : postUnpublish postID authorID isAdmin db = .ok (p, db')) :
    p.status = PostStatus.draft ∧ p.publishedAt = post.publishedAt := by
  unfold postUnpublish at h
  rw [hfind] at h
  dsimp only at h
  cases hauth : (!isAdmin && post.authorID != authorID)
  · rw [hauth] at h
    simp only [Bool.false_eq_true, if_false, Except.ok.injEq, Prod.mk.injEq] at h
    obtain ⟨hp, -⟩ := h
    rw [← hp]
    exact ⟨rfl, rfl⟩
  · rw [hauth] at h; simp at h

/-- C1: a post created published carries `published_at = now` immediately; a
status update transitioning into `published` with the timestamp unset sets
it; an update never changes an already-set timestamp; `Publish` sets the
timestamp only when unset (and never alters a set one); `Unpublish` moves
the post to draft and leaves the timestamp untouched. -/
theorem post_publishedAt_lifecycle
    (now postID authorID newID : Nat) (isAdmin : Bool)
    (reqC : PostCreateRequest) (reqU : PostUpdateRequest)
    (db : List Post) (post : Post) (t : Nat) :
    (∀ p db', postCreate now authorID reqC db newID = .ok (p, db') →
      reqC.status = PostStatus.published → p.publishedAt = some now) ∧
    (∀ p db', postGetByID db postID = some post → post.publishedAt = none →
      reqU.status = some PostStatus.published → post.status ≠ PostStatus.published →
      postUpdate now postID authorID reqU isAdmin db = .ok (p, db') →
      p.publishedAt = some now) ∧
    (∀ p db', postGetByID db postID = some post → post.publishedAt = some t →
      postUpdate now postID authorID reqU isAdmin db = .ok (p, db') →
      p.publishedAt = some t) ∧
    (∀ p db', postGetByID db postID = some post →
      postPublish now postID authorID isAdmin db = .ok (p, db') →
      p.status = PostStatus.published ∧
      p.publishedAt = (if post.publishedAt = none then some now else post.publishedAt)) ∧
    (∀ p db', postGetByID db postID = some post →
      postUnpublish postID authorID isAdmin db = .ok (p, db') →
      p.status = PostStatus.draft ∧ p.publishedAt = post.publishedAt) := by
  refine ⟨?_, ?_, ?_, ?_, ?_⟩
  · intro p db' h hst
    have := (postCreate_ok_fields now authorID reqC db newID p db' h).2.2.1
    rw [hst] at this
    simpa using this
  · intro p db' hfind hnone hst hne h
    obtain ⟨hp, -⟩ := postUpdate_ok now postID authorID reqU isAdmin db post p db' hfind h
    subst hp
    set x := postApplyImg reqU (postApplyExcerpt reqU (postApplyContent reqU
      (postApplyTitle reqU db postID post))) with hx
    have hxpub : x.publishedAt = post.publishedAt := by
      rw [hx, (postApplyImg_frame _ _).2.2, (postApplyExcerpt_frame _ _).2.2,
        (postApplyContent_frame _ _).2.2, (postApplyTitle_frame _ _ _ _).2]
    have hxstat : x.status = post.status := by
      rw [hx, (postApplyImg_frame _ _).2.1, (postApplyExcerpt_frame _ _).2.1,
        (postApplyContent_frame _ _).2.1, (postApplyTitle_frame _ _ _ _).1]
    exact postApplyStatus_publishedAt_set now reqU x hst (by rw [hxstat]; exact hne)
      (by rw [hxpub]; exact hnone)
  · intro p db' hfind hsome h
    obtain ⟨hp, -⟩ := postUpdate_ok now postID authorID reqU isAdmin db post p db' hfind h
    subst hp
    set x := postApplyImg reqU (postApplyExcerpt reqU (postApplyContent reqU
      (postApplyTitle reqU db postID post))) with hx
    have hxpub : x.publishedAt = post.publishedAt := by
      rw [hx, (postApplyImg_frame _ _).2.2, (postApplyExcerpt_frame _ _).2.2,
        (postApplyContent_frame _ _).2.2, (postApplyTitle_frame _ _ _ _).2]
    rw [postApplyStatus_publishedAt_keep now reqU x (by rw [hxpub, hsome]; simp),
      hxpub, hsome]
  · intro p db' hfind h
    exact postPublish_ok now postID authorID isAdmin db post p db' hfind h
  · intro p db' hfind h
    exact postUnpublish_ok postID authorID isAdmin db post p db' hfind h

/-- Witness for C1: a concrete post created published at time 5; a draft
post published by update at time 5; a published-at-3 post whose timestamp
survives a draft update, republishing and unpublishing. -/
theorem post_publishedAt_lifecycle_witness :
    postCreate 5 7 cReqPub [] 1 = .ok (cPubPost, [cPubPost]) ∧
    cPubPost.publishedAt = some 5 ∧
    postUpdate 5 1 7 cReqPublish false [samplePost] = .ok (cSamplePublished5, [cSamplePublished5]) ∧
    cSamplePublished5.publishedAt = some 5 ∧
    postUpdate 9 1 7 cReqDraftStatus false [cPublished3] = .ok (cUnpub3, [cUnpub3]) ∧
    cUnpub3.publishedAt = some 3 ∧
    postPublish 9 1 7 false [cPublished3] = .ok (cPublished3, [cPublished3]) ∧
    cPublished3.status = PostStatus.published ∧ cPublished3.publishedAt = some 3 ∧
    postUnpublish 1 7 false [cPublished3] = .ok (cUnpub3, [cUnpub3]) ∧
    cUnpub3.status = PostStatus.draft ∧ cUnpub3.publishedAt = some 3 := by
  refine ⟨rfl, ?_, rfl, ?_, rfl, ?_, rfl, ?_, ?_, rfl, ?_, ?_⟩
  · exact (post_publishedAt_lifecycle 5 1 7 1 false cReqPub cReqPublish [] samplePost 0).1
      cPubPost [cPubPost] rfl rfl
  · exact (post_publishedAt_lifecycle 5 1 7 1 false cReqPub cReqPublish [samplePost]
      samplePost 0).2.1 cSamplePublished5 [cSamplePublished5] rfl rfl rfl (by decide) rfl
  · exact (post_publishedAt_lifecycle 9 1 7 1 false cReqPub cReqDraftStatus [cPublished3]
      cPublished3 3).2.2.1 cUnpub3 [cUnpub3] rfl rfl rfl
  · exact ((post_publishedAt_lifecycle 9 1 7 1 false cReqPub cReqPublish [cPublished3]
      cPublished3 3).2.2.2.1 cPublished3 [cPublished3] rfl rfl).1
  · exact ((post_publishedAt_lifecycle 9 1 7 1 false cReqPub cReqPublish [cPublished3]
      cPublished3 3).2.2.2.1 cPublished3 [cPublished3] rfl rfl).2.trans rfl
  · exact ((post_publishedAt_lifecycle 9 1 7 1 false cReqPub cReqPublish [cPublished3]
      cPublished3 3).2.2.2.2 cUnpub3 [cUnpub3] rfl rfl).1
  · exact ((post_publishedAt_lifecycle 9 1 7 1 false cReqPub cReqPublish [cPublished3]
      cPublished3 3).2.2.2.2 cUnpub3 [cUnpub3] rfl rfl).2.trans rfl

/-! ### C7: which updates keep the stored slug -/

/-- An omitted title leaves the whole record untouched by the title block. -/
lemma postApplyTitle_of_empty (req : PostUpdateRequest) (db : List Post)
    (postID : Nat) (post : Post) (h : req.title.isEmpty = true) :
    postApplyTitle req db postID post = post := by
  unfold postApplyTitle
  simp [h]

/-- When the freshly derived slug is taken by another post, the title block
keeps the stored slug. -/
lemma postApplyTitle_slug_of_taken (req : PostUpdateRequest) (db : List Post)
    (postID : Nat) (post : Post)
    (h : postIsSlugTaken db (generateSlug req.title) postID = true) :
    (postApplyTitle req db postID post).slug = post.slug := by
  unfold postApplyTitle
  split
  · simp [h]
  · rfl

/-- The description block never touches the slug or the name. -/
lemma tagApplyDescription_frame (req : TagUpdateRequest) (tag : Tag) :
    (tagApplyDescription req tag).slug = tag.slug ∧
    (tagApplyDescription req tag).name = tag.name := by
  unfold tagApplyDescription
  split <;> exact ⟨rfl, rfl⟩

/-- The color block never touches the slug or the name. -/
lemma tagApplyColor_frame (req : TagUpdateRequest) (tag : Tag) :
    (tagApplyColor req tag).slug = tag.slug ∧
    (tagApplyColor req tag).name = tag.name := by
  unfold tagApplyColor
  split <;> exact ⟨rfl, rfl⟩

/-- An omitted name leaves the whole record untouched by the name block. -/
lemma tagApplyName_of_empty (req : TagUpdateRequest) (db : List Tag)
    (tagID : Nat) (tag : Tag) (h : req.name.isEmpty = true) :
    tagApplyName req db tagID tag = tag := by
  unfold tagApplyName
  simp [h]

/-- A name equal to the stored one leaves the record untouched by the name
block. -/
lemma tagApplyName_of_eq (req : TagUpdateRequest) (db : List Tag)
    (tagID : Nat) (tag : Tag) (h : req.name = tag.name) :
    tagApplyName req db tagID tag = tag := by
  unfold tagApplyName
  simp [h]

/-- When the freshly derived slug is taken by another tag, the name block
keeps the stored slug. -/
lemma tagApplyName_slug_of_taken (req : TagUpdateRequest) (db : List Tag)
    (tagID : Nat) (tag : Tag)
    (h : tagIsSlugTaken db (generateSlug req.name) tagID = true) :
    (tagApplyName req db tagID tag).slug = tag.slug := by
  unfold tagApplyName
  split
  · simp [h]
  · rfl

/-- A valid, authorized post update always succeeds (slug collisions are not
an error path). -/
lemma postUpdate_succeeds (now postID authorID : Nat) (req : PostUpdateRequest)
    (isAdmin : Bool) (db : List Post) (post : Post)
    (hval : postUpdateReqValid req = true)
    (hfind : postGetByID db postID = some post)
    (hauth : (!isAdmin && post.authorID != authorID) = false) :
    ∃ p db', postUpdate now postID authorID req isAdmin db = .ok (p, db') := by
  unfold postUpdate
  rw [hval, hfind]
  simp only [Bool.not_true, Bool.false_eq_true, if_false]
  rw [hauth]
  simp only [Bool.false_eq_true, if_false]
  exact ⟨_, _, rfl⟩

/-- Inversion of a successful `tagService.Update`: the stored row is the
fetched row with the three field blocks applied in source order. -/
lemma tagUpdate_ok (tagID : Nat) (req : TagUpdateRequest) (db : List Tag)
    (tag t' : Tag) (db2 : List Tag)
    (hfind : tagGetByID db tagID = some tag)
    (h : tagUpdate tagID req db = .ok (t', db2)) :
    t' = tagApplyColor req (tagApplyDescription req (tagApplyName req db tagID tag)) ∧
    db2 = tagSave db t' := by
  unfold tagUpdate at h
  rw [hfind] at h
  cases hval : tagUpdateReqValid req
  · rw [hval] at h; simp at h
  · rw [hval] at h
    simp only [Bool.not_true, Bool.false_eq_true, if_false] at h
    cases herr : (!req.name.isEmpty && req.name != tag.name && tagIsNameTaken db req.name tagID)
    · rw [herr] at h
      simp only [Bool.false_eq_true, if_false, Except.ok.injEq, Prod.mk.injEq] at h
      refine ⟨h.1.symm, ?_⟩
      rw [← h.2, ← h.1]
    · rw [herr] at h; simp at h

/-- A valid tag update whose name passes the uniqueness check always
succeeds (slug collisions are not an error path). -/
lemma tagUpdate_succeeds (tagID : Nat) (req : TagUpdateRequest) (db : List Tag)
    (tag : Tag) (hval : tagUpdateReqValid req = true)
    (hfind : tagGetByID db tagID = some tag)
    (herr : (!req.name.isEmpty && req.name != tag.name &&
      tagIsNameTaken db req.name tagID) = false) :
    ∃ t' db2, tagUpdate tagID req db = .ok (t', db2) := by
  unfold tagUpdate
  rw [hval, hfind]
  simp only [Bool.not_true, Bool.false_eq_true, if_false]
  rw [herr]
  simp only [Bool.false_eq_true, if_false]
  exact ⟨_, _, rfl⟩

/-- Counterexample to C7.  The stored post has title `Hello World` but slug
`hello-world-1` (disambiguated when it was created, the `hello-world` holder
since deleted).  An update re-submitting the identical title does not change
the title, yet the update regenerates the slug: the result's slug is the
freshly derived `hello-world`, not the stored `hello-world-1` — so an update
that does not change the title can change the slug. -/
theorem postUpdate_same_title_changes_slug_counterexample :
    cPostDedup.title = toChars "Hello World" ∧
    cReqSameTitle.title = toChars "Hello World" ∧
    postUpdate 0 1 7 cReqSameTitle false [cPostDedup] = .ok (cPostRecanon, [cPostRecanon]) ∧
    cPostRecanon.title = cPostDedup.title ∧
    cPostRecanon.slug ≠ cPostDedup.slug := by
  exact ⟨rfl, rfl, rfl, rfl, by decide⟩

/-- C7 (amended): a post update that omits the title keeps the stored slug;
a post update whose freshly derived slug collides with another record still
succeeds and keeps the prior slug; a tag update that omits the name or
re-submits the unchanged name keeps the stored slug; a tag update whose
freshly derived slug collides still succeeds and keeps the prior slug.
(A post update re-submitting an unchanged title may change the slug — see
the counterexample.) -/
theorem update_slug_keep_rules
    (now postID authorID tagID : Nat) (isAdmin : Bool)
    (reqP : PostUpdateRequest) (reqT : TagUpdateRequest)
    (db : List Post) (tdb : List Tag) (post : Post) (tag : Tag) :
    (∀ p db', postGetByID db postID = some post → reqP.title = [] →
      postUpdate now postID authorID reqP isAdmin db = .ok (p, db') →
      p.slug = post.slug) ∧
    (postUpdateReqValid reqP = true → postGetByID db postID = some post →
      (!isAdmin && post.authorID != authorID) = false →
      postIsSlugTaken db (generateSlug reqP.title) postID = true →
      ∃ p db', postUpdate now postID authorID reqP isAdmin db = .ok (p, db') ∧
        p.slug = post.slug) ∧
    (∀ t' db2, tagGetByID tdb tagID = some tag →
      (reqT.name = [] ∨ reqT.name = tag.name) →
      tagUpdate tagID reqT tdb = .ok (t', db2) → t'.slug = tag.slug) ∧
    (tagUpdateReqValid reqT = true → tagGetByID tdb tagID = some tag →
      (!reqT.name.isEmpty && reqT.name != tag.name &&
        tagIsNameTaken tdb reqT.name tagID) = false →
      tagIsSlugTaken tdb (generateSlug reqT.name) tagID = true →
      ∃ t' db2, tagUpdate tagID reqT tdb = .ok (t', db2) ∧ t'.slug = tag.slug) := by
  have postChain : ∀ p0 : Post,
      (postApplyStatus now reqP (postApplyImg reqP (postApplyExcerpt reqP
        (postApplyContent reqP p0)))).slug = p0.slug := by
    intro p0
    rw [postApplyStatus_slug, (postApplyImg_frame _ _).1,
      (postApplyExcerpt_frame _ _).1, (postApplyContent_frame _ _).1]
  have tagChain : ∀ t0 : Tag,
      (tagApplyColor reqT (tagApplyDescription reqT t0)).slug = t0.slug := by
    intro t0
    rw [(tagApplyColor_frame _ _).1, (tagApplyDescription_frame _ _).1]
  refine ⟨?_, ?_, ?_, ?_⟩
  · intro p db' hfind htitle h
    obtain ⟨hp, -⟩ := postUpdate_ok now postID authorID reqP isAdmin db post p db' hfind h
    subst hp
    rw [postChain, postApplyTitle_of_empty reqP db postID post (by rw [htitle]; rfl)]
  · intro hval hfind hauth htaken
    obtain ⟨p, db', heq⟩ :=
      postUpdate_succeeds now postID authorID reqP isAdmin db post hval hfind hauth
    obtain ⟨hp, -⟩ := postUpdate_ok now postID authorID reqP isAdmin db post p db' hfind heq
    subst hp
    exact ⟨_, _, heq, by rw [postChain, postApplyTitle_slug_of_taken reqP db postID post htaken]⟩
  · intro t' db2 hfind hname h
    obtain ⟨ht, -⟩ := tagUpdate_ok tagID reqT tdb tag t' db2 hfind h
    subst ht
    rcases hname with hempty | heq
    · rw [tagChain, tagApplyName_of_empty reqT tdb tagID tag (by rw [hempty]; rfl)]
    · rw [tagChain, tagApplyName_of_eq reqT tdb tagID tag heq]
  · intro hval hfind herr htaken
    obtain ⟨t', db2, heq⟩ := tagUpdate_succeeds tagID reqT tdb tag hval hfind herr
    obtain ⟨ht, -⟩ := tagUpdate_ok tagID reqT tdb tag t' db2 hfind heq
    subst ht
    exact ⟨_, _, heq, by rw [tagChain, tagApplyName_slug_of_taken reqT tdb tagID tag htaken]⟩

/-- Witness for C7 (amended): a status-only post update keeps the slug; a
re-titled post whose fresh slug is held by another post keeps `hello-world-1`
and succeeds; a color-only tag update keeps the slug; a tag rename whose
fresh slug `go` is held by another tag keeps `golang` and succeeds. -/
theorem update_slug_keep_rules_witness :
    (postUpdate 5 1 7 cReqPublish false [samplePost] = .ok (cSamplePublished5, [cSamplePublished5]) ∧
      cSamplePublished5.slug = samplePost.slug) ∧
    (∃ p db', postUpdate 0 1 7 cReqSameTitle false [cPostDedup, cHWOther] = .ok (p, db') ∧
      p.slug = cPostDedup.slug) ∧
    (tagUpdate 1 cTagReqColor [cTag] =
      .ok ({ cTag with color := toChars "#FF0000" }, [{ cTag with color := toChars "#FF0000" }]) ∧
      ({ cTag with color := toChars "#FF0000" } : Tag).slug = cTag.slug) ∧
    (∃ t' db2, tagUpdate 1 cTagReqRename [cTagA, cTagB] = .ok (t', db2) ∧
      t'.slug = cTagA.slug) := by
  refine ⟨⟨rfl, ?_⟩, ?_, ⟨rfl, ?_⟩, ?_⟩
  · exact (update_slug_keep_rules 5 1 7 1 false cReqPublish cTagReqColor [samplePost]
      [cTag] samplePost cTag).1 cSamplePublished5 [cSamplePublished5] rfl rfl rfl
  · exact (update_slug_keep_rules 0 1 7 1 false cReqSameTitle cTagReqColor
      [cPostDedup, cHWOther] [cTag] cPostDedup cTag).2.1 (by decide) rfl (by decide) (by decide)
  · exact (update_slug_keep_rules 5 1 7 1 false cReqPublish cTagReqColor [samplePost]
      [cTag] samplePost cTag).2.2.1 { cTag with color := toChars "#FF0000" }
      [{ cTag with color := toChars "#FF0000" }] rfl (Or.inl rfl) rfl
  · exact (update_slug_keep_rules 0 1 7 1 false cReqSameTitle cTagReqRename
      [cPostDedup] [cTagA, cTagB] cPostDedup cTagA).2.2.2 (by decide) rfl (by decide) (by decide)

end Blog
